import Mathlib

set_option maxRecDepth 4000

/-!
Shallow embedding of `real_time_crypto_scalper.py` (the live scalper pipeline:
price-history buffer, RSI/MA indicator guards, signal decision, cooldown and
position gating, bracket-order dispatch), together with proofs of the spec
claims about it.

Modelling conventions:
* Python floats are modelled as exact rationals (`ℚ`); the `Decimal`-based
  rounding in `round_price` is exact decimal arithmetic and is modelled
  exactly.
* The numeric kernel of `ta.momentum.RSIIndicator(...).rsi().iloc[-1]` is
  external library code (pandas/ta floating point); the development is
  parameterized over it (`K : List ℚ → ℕ → ℚ`), so every theorem below holds
  for the actual kernel in particular.  The length guard around it
  (`compute_rsi_from_series`) is modelled from the source.
* External effects (wall clock `time.time()`, the Alpaca position registry,
  and the order gateway `submit_order`) are inputs of one evaluation,
  collected in `Env`.  A raising call is a `failure` outcome; the Python
  `try/except` blocks around those calls are modelled by total functions on
  those outcomes.
* `print` logging has no effect on state and is not modelled.
-/

namespace Scalper

/-- CONFIG: `RSI_PERIOD = 14`. -/
def RSI_PERIOD : ℕ := 14

/-- CONFIG: `MA_PERIOD = 20`. -/
def MA_PERIOD : ℕ := 20

/-- CONFIG: `ORDER_QTY = 0.001`. -/
def ORDER_QTY : ℚ := 1 / 1000

/-- CONFIG: `STOP_LOSS_PCT = 0.01`. -/
def STOP_LOSS_PCT : ℚ := 1 / 100

/-- CONFIG: `TAKE_PROFIT_PCT = 0.02`. -/
def TAKE_PROFIT_PCT : ℚ := 2 / 100

/-- CONFIG: `MAX_BARS = 500`. -/
def MAX_BARS : ℕ := 500

/-- CONFIG: `SYMBOL = "BTC/USD"`. -/
def SYMBOL : String := "BTC/USD"

/-- `cooldown_seconds = 30.0`. -/
def cooldown_seconds : ℚ := 30

/-- `last_order_time = defaultdict(lambda: 0.0)`: the initial map, every
symbol defaults to `0.0`. -/
def initial_last_order_time : String → ℚ := fun _ => 0

/-- The dict assignment `last_order_time[symbol] = now_ts`. -/
def setLastOrderTime (lot : String → ℚ) (symbol : String) (t : ℚ) :
    String → ℚ :=
  fun s => if s = symbol then t else lot s

/-- One row of `bars_df`: a `timestamp` (possibly `None`) and a `close`. -/
structure BarRow where
  timestamp : Option Int
  close : ℚ
deriving DecidableEq

/-- `OrderSide.BUY` / `OrderSide.SELL`. -/
inductive Side where
  | buy
  | sell
deriving DecidableEq

/-- Outcome of one `trading_client.get_all_positions()` call:
either the list of position symbols, or a raised exception. -/
inductive RegistryResult where
  | ok (positions : List String)
  | failure
deriving DecidableEq

/-- Outcome of one `trading_client.submit_order(order)` call:
success, or a raised exception. -/
inductive GatewayResult where
  | ok
  | failure
deriving DecidableEq

/-- The external inputs of one evaluation of `check_and_maybe_trade`:
the wall clock `time.time()`, and the outcomes the registry and gateway
would produce if called during this evaluation. -/
structure Env where
  now_ts : ℚ
  registry : RegistryResult
  gateway : GatewayResult

/-- The bracket order built by `place_bracket_order` and handed to
`submit_order` (`MarketOrderRequest` fields relevant to the claims). -/
structure BracketOrder where
  symbol : String
  qty : ℚ
  side : Side
  slPrice : ℚ
  tpPrice : ℚ
deriving DecidableEq

/-- Truncation toward zero: `decimal.ROUND_DOWN` ("round towards zero" in the
Python `decimal` documentation). -/
def rat_trunc (x : ℚ) : ℤ :=
  if 0 ≤ x then ⌊x⌋ else ⌈x⌉

/-- `round_price(price, decimals=4)`:
`float(Decimal(str(price)).quantize(Decimal('1.' + '0'*decimals), ROUND_DOWN))`,
i.e. the price truncated toward zero at `decimals` decimal places.  Every
call site in the source uses the default `decimals = 4`. -/
def round_price (price : ℚ) (decimals : ℕ) : ℚ :=
  (rat_trunc (price * 10 ^ decimals) : ℚ) / 10 ^ decimals

/-- `compute_rsi_from_series(series, period)`: `None` when
`len(series) < period + 1`, else the `ta` RSI kernel value `K series period`
(see the module docstring: `K` stands for
`RSIIndicator(series, window=period).rsi().iloc[-1]`). -/
def compute_rsi_from_series (K : List ℚ → ℕ → ℚ) (series : List ℚ)
    (period : ℕ) : Option ℚ :=
  if series.length < period + 1 then none else some (K series period)

/-- `compute_ma_from_series(series, period)`: `None` when
`len(series) < period`, else `series.rolling(window=period).mean().iloc[-1]`,
the arithmetic mean of the last `period` entries. -/
def compute_ma_from_series (series : List ℚ) (period : ℕ) : Option ℚ :=
  if series.length < period then none
  else some ((series.drop (series.length - period)).sum / (period : ℚ))

/-- Python `symbol.replace("/", "")` as called in `has_open_position`:
for a single-character pattern and empty replacement this removes every
`'/'` character. -/
def removeSlashes (s : String) : String :=
  ⟨s.data.filter (fun ch => ch ≠ '/')⟩

/-- `has_open_position(symbol)`: scans `get_all_positions()` for a position
whose `.symbol` equals `symbol.replace("/", "")` or `symbol`.  The `except`
branch prints a warning and falls through to `return False`. -/
def has_open_position (symbol : String) (r : RegistryResult) : Bool :=
  match r with
  | RegistryResult.ok positions =>
      positions.any (fun p => p = removeSlashes symbol || p = symbol)
  | RegistryResult.failure => false

/-- `place_bracket_order(symbol, qty, side, entry_price)` under gateway
outcome `g`.  Returns `(resp, order)`: `resp` is what the Python function
returns to its caller (the submitted-order response, or `None` when
`submit_order` raises and the `except` branch returns `None`), and `order`
is the bracket order handed to `submit_order` (the submission attempt). -/
def place_bracket_order (symbol : String) (qty : ℚ) (side : Side)
    (entry_price : ℚ) (g : GatewayResult) :
    Option BracketOrder × BracketOrder :=
  let sl_price :=
    if side = Side.buy then round_price (entry_price * (1 - STOP_LOSS_PCT)) 4
    else round_price (entry_price * (1 + STOP_LOSS_PCT)) 4
  let tp_price :=
    if side = Side.buy then round_price (entry_price * (1 + TAKE_PROFIT_PCT)) 4
    else round_price (entry_price * (1 - TAKE_PROFIT_PCT)) 4
  let order : BracketOrder := ⟨symbol, qty, side, sl_price, tp_price⟩
  match g with
  | GatewayResult.ok => (some order, order)
  | GatewayResult.failure => (none, order)

/-- `check_and_maybe_trade(symbol)` over the current close buffer `bars` and
cooldown map `lot`, with the evaluation's external inputs in `env`.  Returns
the updated `last_order_time` map and the list of orders submitted to the
gateway during the evaluation (each `submit_order` call contributes its
order, whether or not it succeeded).  The Python
`if not has_open_position(...) : ... else: skip` appears with the two
branches swapped. -/
def check_and_maybe_trade (K : List ℚ → ℕ → ℚ) (bars : List BarRow)
    (lot : String → ℚ) (symbol : String) (env : Env) :
    (String → ℚ) × List BracketOrder :=
  if bars.isEmpty then (lot, [])
  else
    let closes := bars.map BarRow.close
    let rsi := compute_rsi_from_series K closes RSI_PERIOD
    let ma := compute_ma_from_series closes MA_PERIOD
    let last_price := closes.getLastD 0
    match rsi, ma with
    | some r, some m =>
        if env.now_ts - lot symbol < cooldown_seconds then (lot, [])
        else if r < 30 ∧ last_price > m then
          if has_open_position symbol env.registry then (lot, [])
          else
            let po := place_bracket_order symbol ORDER_QTY Side.buy
              last_price env.gateway
            ((if po.1.isSome then setLastOrderTime lot symbol env.now_ts
              else lot), [po.2])
        else if r > 70 ∧ last_price < m then
          if has_open_position symbol env.registry then (lot, [])
          else
            let po := place_bracket_order symbol ORDER_QTY Side.sell
              last_price env.gateway
            ((if po.1.isSome then setLastOrderTime lot symbol env.now_ts
              else lot), [po.2])
        else (lot, [])
    | _, _ => (lot, [])

/-- A bar as delivered to the `on_bars` subscriber: `getattr` may find a
`timestamp`, a `close` and/or a `c` attribute. -/
structure WireBar where
  timestamp : Option Int
  close : Option ℚ
  c : Option ℚ

/-- The buffer update
`bars_df = pd.concat([bars_df, pd.DataFrame([new_row])], ignore_index=True).tail(MAX_BARS)`:
append one row, keep the last `MAX_BARS` rows. -/
def appendBar (bars : List BarRow) (row : BarRow) : List BarRow :=
  let l := bars ++ [row]
  l.drop (l.length - MAX_BARS)

/-- `on_bars(bar)`: read `ts` and `close`
(`close = float(getattr(bar, "close", float(getattr(bar, "c", 0.0))))`),
append the row to the buffer, then run `check_and_maybe_trade(SYMBOL)`
(whose exceptions are caught; the model is total, so the `try/except` is a
no-op).  Returns the new buffer, the new cooldown map and the submitted
orders. -/
def on_bars (K : List ℚ → ℕ → ℚ) (bars : List BarRow) (lot : String → ℚ)
    (bar : WireBar) (env : Env) :
    List BarRow × ((String → ℚ) × List BracketOrder) :=
  let ts := bar.timestamp
  let close := bar.close.getD (bar.c.getD 0)
  let bars2 := appendBar bars ⟨ts, close⟩
  (bars2, check_and_maybe_trade K bars2 lot SYMBOL env)

/-- A concrete RSI-kernel outcome used in concrete scenarios: an evaluation
in which the `ta` RSI kernel returned `25` (below the buy threshold `30`). -/
def rsi25 : List ℚ → ℕ → ℚ := fun _ _ => 25

/-- A concrete buffer of 20 closes (19 bars at `100`, then one at `200`):
long enough for RSI(14) and MA(20); its MA is `105` and its last close `200`,
so last close > MA. -/
def bars20 : List BarRow := List.replicate 19 ⟨none, 100⟩ ++ [⟨none, 200⟩]

/-- Unfolding lemma: `check_and_maybe_trade` with its local `let`s inlined. -/
theorem check_eq (K : List ℚ → ℕ → ℚ) (bars : List BarRow)
    (lot : String → ℚ) (sym : String) (env : Env) :
    check_and_maybe_trade K bars lot sym env =
      if bars.isEmpty then (lot, [])
      else
        match compute_rsi_from_series K (bars.map BarRow.close) RSI_PERIOD,
              compute_ma_from_series (bars.map BarRow.close) MA_PERIOD with
        | some r, some m =>
            if env.now_ts - lot sym < cooldown_seconds then (lot, [])
            else if r < 30 ∧ (bars.map BarRow.close).getLastD 0 > m then
              if has_open_position sym env.registry then (lot, [])
              else
                ((if (place_bracket_order sym ORDER_QTY Side.buy
                       ((bars.map BarRow.close).getLastD 0) env.gateway).1.isSome
                   then setLastOrderTime lot sym env.now_ts else lot),
                 [(place_bracket_order sym ORDER_QTY Side.buy
                     ((bars.map BarRow.close).getLastD 0) env.gateway).2])
            else if r > 70 ∧ (bars.map BarRow.close).getLastD 0 < m then
              if has_open_position sym env.registry then (lot, [])
              else
                ((if (place_bracket_order sym ORDER_QTY Side.sell
                       ((bars.map BarRow.close).getLastD 0) env.gateway).1.isSome
                   then setLastOrderTime lot sym env.now_ts else lot),
                 [(place_bracket_order sym ORDER_QTY Side.sell
                     ((bars.map BarRow.close).getLastD 0) env.gateway).2])
            else (lot, [])
        | _, _ => (lot, []) := rfl

/-- Exhaustive case analysis of one evaluation: either nothing is submitted
and the cooldown map is untouched, or exactly one order is handed to the
gateway, the evaluation was not throttled, the position check reported no
open position, and the side satisfies the corresponding signal condition. -/
theorem check_cases (K : List ℚ → ℕ → ℚ) (bars : List BarRow)
    (lot : String → ℚ) (sym : String) (env : Env) :
    check_and_maybe_trade K bars lot sym env = (lot, []) ∨
    ∃ side r m,
      compute_rsi_from_series K (bars.map BarRow.close) RSI_PERIOD = some r ∧
      compute_ma_from_series (bars.map BarRow.close) MA_PERIOD = some m ∧
      ¬ (env.now_ts - lot sym < cooldown_seconds) ∧
      has_open_position sym env.registry = false ∧
      ((side = Side.buy ∧ r < 30 ∧ (bars.map BarRow.close).getLastD 0 > m) ∨
       (side = Side.sell ∧ ¬(r < 30 ∧ (bars.map BarRow.close).getLastD 0 > m) ∧
         r > 70 ∧ (bars.map BarRow.close).getLastD 0 < m)) ∧
      check_and_maybe_trade K bars lot sym env =
        ((if env.gateway = GatewayResult.ok
          then setLastOrderTime lot sym env.now_ts else lot),
         [(place_bracket_order sym ORDER_QTY side
             ((bars.map BarRow.close).getLastD 0) env.gateway).2]) := by
  rw [check_eq]
  by_cases hemp : bars.isEmpty
  · left; rw [if_pos hemp]
  · rw [if_neg hemp]
    rcases hr : compute_rsi_from_series K (bars.map BarRow.close) RSI_PERIOD
      with _ | r
    · left; rfl
    · rcases hm : compute_ma_from_series (bars.map BarRow.close) MA_PERIOD
        with _ | m
      · left; rfl
      · dsimp only
        by_cases hcd : env.now_ts - lot sym < cooldown_seconds
        · left; simp only [if_pos hcd]
        · rw [if_neg hcd]
          by_cases hbuy : r < 30 ∧ (bars.map BarRow.close).getLastD 0 > m
          · rw [if_pos hbuy]
            by_cases hpos : has_open_position sym env.registry
            · left; rw [if_pos hpos]
            · right
              refine ⟨Side.buy, r, m, rfl, rfl, hcd,
                Bool.not_eq_true _ ▸ hpos, Or.inl ⟨rfl, hbuy⟩, ?_⟩
              rw [if_neg hpos]
              cases env.gateway <;> rfl
          · rw [if_neg hbuy]
            by_cases hsell : r > 70 ∧ (bars.map BarRow.close).getLastD 0 < m
            · rw [if_pos hsell]
              by_cases hpos : has_open_position sym env.registry
              · left; rw [if_pos hpos]
              · right
                refine ⟨Side.sell, r, m, rfl, rfl, hcd,
                  Bool.not_eq_true _ ▸ hpos, Or.inr ⟨rfl, hbuy, hsell⟩, ?_⟩
                rw [if_neg hpos]
                cases env.gateway <;> rfl
            · left; rw [if_neg hsell]

/-- Positive direction: if both indicators are defined, the evaluation is not
throttled, the buy conditions hold and the registry reports no open position,
then the evaluation dispatches exactly one buy order. -/
theorem check_buy_fires (K : List ℚ → ℕ → ℚ) (bars : List BarRow)
    (lot : String → ℚ) (sym : String) (env : Env) (r m : ℚ)
    (hr : compute_rsi_from_series K (bars.map BarRow.close) RSI_PERIOD = some r)
    (hm : compute_ma_from_series (bars.map BarRow.close) MA_PERIOD = some m)
    (hcd : ¬ (env.now_ts - lot sym < cooldown_seconds))
    (hrsi : r < 30) (hma : (bars.map BarRow.close).getLastD 0 > m)
    (hpos : has_open_position sym env.registry = false) :
    check_and_maybe_trade K bars lot sym env =
      ((if env.gateway = GatewayResult.ok
        then setLastOrderTime lot sym env.now_ts else lot),
       [(place_bracket_order sym ORDER_QTY Side.buy
           ((bars.map BarRow.close).getLastD 0) env.gateway).2]) := by
  have hemp : bars.isEmpty = false := by
    rcases bars with _ | ⟨b, bs⟩
    · simp [compute_ma_from_series, MA_PERIOD] at hm
    · rfl
  rw [check_eq]
  simp only [hemp, Bool.false_eq_true, if_false]
  rw [hr, hm]
  dsimp only
  rw [if_neg hcd, if_pos ⟨hrsi, hma⟩, if_neg (by simp [hpos])]
  cases env.gateway <;> rfl

/-- The order handed to the gateway carries the side it was built with. -/
theorem place_side (s : String) (q : ℚ) (sd : Side) (e : ℚ)
    (g : GatewayResult) :
    (place_bracket_order s q sd e g).2.side = sd := by
  cases g <;> rfl

/-- C1 (amended): on a raising `get_all_positions`, `has_open_position`
returns `False` — the dispatcher fails OPEN, and the whole evaluation
behaves exactly as if the registry had reported an empty position list
(so a new entry order may be submitted). -/
theorem registry_failure_treated_as_no_position (K : List ℚ → ℕ → ℚ)
    (bars : List BarRow) (lot : String → ℚ) (sym : String) (now : ℚ)
    (g : GatewayResult) :
    has_open_position sym RegistryResult.failure = false ∧
    check_and_maybe_trade K bars lot sym ⟨now, RegistryResult.failure, g⟩ =
      check_and_maybe_trade K bars lot sym ⟨now, RegistryResult.ok [], g⟩ :=
  ⟨rfl, rfl⟩

/-- C1 is false on the code: with a Buy signal, cooldown elapsed and a
FAILING position registry, the evaluation submits an order (the claim says
registry failure forces zero submissions). -/
theorem order_submitted_despite_registry_failure :
    (check_and_maybe_trade rsi25 bars20 initial_last_order_time SYMBOL
        ⟨100, RegistryResult.failure, GatewayResult.ok⟩).2 ≠ [] := by
  with_unfolding_all decide

/-- C2: after an evaluation that successfully submitted an order at time
`env.now_ts`, that evaluation submitted exactly one order, and any further
evaluation for the same symbol within `cooldown_seconds` submits none. -/
theorem cooldown_window_single_submission (K : List ℚ → ℕ → ℚ)
    (bars bars2 : List BarRow) (lot : String → ℚ) (sym : String)
    (env env2 : Env) (hg : env.gateway = GatewayResult.ok)
    (hsub : (check_and_maybe_trade K bars lot sym env).2 ≠ [])
    (hwin : env2.now_ts - env.now_ts < cooldown_seconds) :
    (check_and_maybe_trade K bars lot sym env).2.length = 1 ∧
    (check_and_maybe_trade K bars2
        (check_and_maybe_trade K bars lot sym env).1 sym env2).2 = [] := by
  rcases check_cases K bars lot sym env with h | ⟨side, r, m, _, _, _, _, _, hres⟩
  · exact absurd (by rw [h]) hsub
  · have h1 : (check_and_maybe_trade K bars lot sym env).1 sym = env.now_ts := by
      rw [hres, if_pos hg]
      simp [setLastOrderTime]
    refine ⟨by rw [hres]; rfl, ?_⟩
    rcases check_cases K bars2 (check_and_maybe_trade K bars lot sym env).1
        sym env2 with h2 | ⟨_, _, _, _, _, hcd2, _, _, _⟩
    · rw [h2]
    · exact absurd (by rw [h1]; exact hwin) hcd2

/-- C2 witness: on `bars20` the evaluation at `t = 100` submits exactly one
order, and a second evaluation at `t = 110` (inside the 30 s window)
submits none. -/
theorem cooldown_window_single_submission_witness :
    (check_and_maybe_trade rsi25 bars20 initial_last_order_time SYMBOL
        ⟨100, RegistryResult.ok [], GatewayResult.ok⟩).2 ≠ [] ∧
    ((check_and_maybe_trade rsi25 bars20 initial_last_order_time SYMBOL
        ⟨100, RegistryResult.ok [], GatewayResult.ok⟩).2.length = 1 ∧
     (check_and_maybe_trade rsi25 bars20
        (check_and_maybe_trade rsi25 bars20 initial_last_order_time SYMBOL
          ⟨100, RegistryResult.ok [], GatewayResult.ok⟩).1 SYMBOL
        ⟨110, RegistryResult.ok [], GatewayResult.ok⟩).2 = []) :=
  ⟨by with_unfolding_all decide,
   cooldown_window_single_submission rsi25 bars20 bars20
     initial_last_order_time SYMBOL
     ⟨100, RegistryResult.ok [], GatewayResult.ok⟩
     ⟨110, RegistryResult.ok [], GatewayResult.ok⟩ rfl
     (by with_unfolding_all decide) (by norm_num [cooldown_seconds])⟩

/-- C3: when `submit_order` raises, `place_bracket_order` surfaces the
failure to its caller by returning `None`, and the evaluation leaves
`last_order_time` untouched (the cooldown gate does not advance, so the
next cycle may resubmit); the model is a total function, so the caught
exception does not crash the pipeline. -/
theorem gateway_failure_no_cooldown_advance (K : List ℚ → ℕ → ℚ)
    (bars : List BarRow) (lot : String → ℚ) (sym s : String) (q e : ℚ)
    (sd : Side) (env : Env) (hg : env.gateway = GatewayResult.failure) :
    (place_bracket_order s q sd e GatewayResult.failure).1 = none ∧
    (check_and_maybe_trade K bars lot sym env).1 = lot := by
  refine ⟨rfl, ?_⟩
  rcases check_cases K bars lot sym env with h | ⟨_, _, _, _, _, _, _, _, hres⟩
  · rw [h]
  · rw [hres, hg]
    simp

/-- C3 witness: gateway failure at a concrete Buy evaluation — `None` is
returned and the cooldown map is unchanged. -/
theorem gateway_failure_no_cooldown_advance_witness :
    (place_bracket_order SYMBOL ORDER_QTY Side.buy 200
        GatewayResult.failure).1 = none ∧
    (check_and_maybe_trade rsi25 bars20 initial_last_order_time SYMBOL
        ⟨100, RegistryResult.ok [], GatewayResult.failure⟩).1 =
      initial_last_order_time :=
  gateway_failure_no_cooldown_advance rsi25 bars20 initial_last_order_time
    SYMBOL SYMBOL ORDER_QTY 200 Side.buy
    ⟨100, RegistryResult.ok [], GatewayResult.failure⟩ rfl

/-- C4: whenever the position registry reports an open position for the
symbol, the evaluation submits nothing to the order gateway. -/
theorem position_gate_blocks_submission (K : List ℚ → ℕ → ℚ)
    (bars : List BarRow) (lot : String → ℚ) (sym : String) (env : Env)
    (hpos : has_open_position sym env.registry = true) :
    (check_and_maybe_trade K bars lot sym env).2 = [] := by
  rcases check_cases K bars lot sym env with h | ⟨_, _, _, _, _, _, hfalse, _, _⟩
  · rw [h]
  · rw [hpos] at hfalse
    cases hfalse

/-- C4 witness: with an open `BTC/USD` position reported and a Buy signal on
`bars20`, zero orders are submitted. -/
theorem position_gate_blocks_submission_witness :
    has_open_position SYMBOL (RegistryResult.ok [SYMBOL]) = true ∧
    (check_and_maybe_trade rsi25 bars20 initial_last_order_time SYMBOL
        ⟨100, RegistryResult.ok [SYMBOL], GatewayResult.ok⟩).2 = [] :=
  ⟨by with_unfolding_all decide,
   position_gate_blocks_submission rsi25 bars20 initial_last_order_time SYMBOL
     ⟨100, RegistryResult.ok [SYMBOL], GatewayResult.ok⟩
     (by with_unfolding_all decide)⟩

/-- C5: the signal decision is a pure function of (rsi, ma, last close):
RSI is undefined iff the series is shorter than `RSI_PERIOD + 1`, the MA is
undefined iff it is shorter than `MA_PERIOD`; if either is undefined the
evaluation holds (no order attempted, no state change); with both defined,
a submitted order is a buy iff rsi < 30 and last close > ma, a sell iff
rsi > 70 and last close < ma, and if neither condition holds nothing is
submitted. -/
theorem signal_decision_spec (K : List ℚ → ℕ → ℚ) (bars : List BarRow)
    (lot : String → ℚ) (sym : String) (env : Env) :
    (compute_rsi_from_series K (bars.map BarRow.close) RSI_PERIOD = none ↔
      (bars.map BarRow.close).length < RSI_PERIOD + 1) ∧
    (compute_ma_from_series (bars.map BarRow.close) MA_PERIOD = none ↔
      (bars.map BarRow.close).length < MA_PERIOD) ∧
    ((compute_rsi_from_series K (bars.map BarRow.close) RSI_PERIOD = none ∨
      compute_ma_from_series (bars.map BarRow.close) MA_PERIOD = none) →
      check_and_maybe_trade K bars lot sym env = (lot, [])) ∧
    (∀ r m,
      compute_rsi_from_series K (bars.map BarRow.close) RSI_PERIOD = some r →
      compute_ma_from_series (bars.map BarRow.close) MA_PERIOD = some m →
      (∀ o ∈ (check_and_maybe_trade K bars lot sym env).2,
        (o.side = Side.buy ↔
          (r < 30 ∧ (bars.map BarRow.close).getLastD 0 > m)) ∧
        (o.side = Side.sell ↔
          (r > 70 ∧ (bars.map BarRow.close).getLastD 0 < m))) ∧
      (¬ (r < 30 ∧ (bars.map BarRow.close).getLastD 0 > m) →
        ¬ (r > 70 ∧ (bars.map BarRow.close).getLastD 0 < m) →
        (check_and_maybe_trade K bars lot sym env).2 = [])) := by
  refine ⟨?_, ?_, ?_, ?_⟩
  · by_cases h : (bars.map BarRow.close).length < RSI_PERIOD + 1 <;>
      simp [compute_rsi_from_series, h]
  · by_cases h : (bars.map BarRow.close).length < MA_PERIOD <;>
      simp [compute_ma_from_series, h]
  · intro hnone
    rcases check_cases K bars lot sym env with h | ⟨_, r, m, hr, hm, _, _, _, _⟩
    · exact h
    · rcases hnone with h1 | h1
      · rw [h1] at hr; cases hr
      · rw [h1] at hm; cases hm
  · intro r m hr hm
    constructor
    · intro o ho
      rcases check_cases K bars lot sym env with h |
        ⟨side, r', m', hr', hm', _, _, hcond, hres⟩
      · rw [h] at ho; cases ho
      · have hrr : r' = r := Option.some.inj (hr'.symm.trans hr)
        have hmm : m' = m := Option.some.inj (hm'.symm.trans hm)
        subst hrr; subst hmm
        rw [hres] at ho
        simp only [List.mem_singleton] at ho
        subst ho
        rw [place_side]
        rcases hcond with ⟨hsd, hb1, hb2⟩ | ⟨hsd, hnb, hs1, hs2⟩
        · subst hsd
          constructor
          · exact iff_of_true rfl ⟨hb1, hb2⟩
          · refine iff_of_false (by simp) ?_
            rintro ⟨h70, _⟩
            exact absurd (lt_trans hb1 (by norm_num)) (not_lt.mpr h70.le)
        · subst hsd
          constructor
          · exact iff_of_false (by simp) hnb
          · exact iff_of_true rfl ⟨hs1, hs2⟩
    · intro hnb hns
      rcases check_cases K bars lot sym env with h |
        ⟨side, r', m', hr', hm', _, _, hcond, hres⟩
      · rw [h]
      · exfalso
        have hrr : r' = r := Option.some.inj (hr'.symm.trans hr)
        have hmm : m' = m := Option.some.inj (hm'.symm.trans hm)
        subst hrr; subst hmm
        rcases hcond with ⟨_, hb1, hb2⟩ | ⟨_, _, hs1, hs2⟩
        · exact hnb ⟨hb1, hb2⟩
        · exact hns ⟨hs1, hs2⟩

/-- C5 witness: on `bars20` with kernel value 25 and MA 105, the submitted
order satisfies the side characterization (it is a buy, and the buy
condition 25 < 30 ∧ 200 > 105 holds). -/
theorem signal_decision_spec_witness :
    compute_rsi_from_series rsi25 (bars20.map BarRow.close) RSI_PERIOD =
      some 25 ∧
    (((place_bracket_order SYMBOL ORDER_QTY Side.buy
          ((bars20.map BarRow.close).getLastD 0) GatewayResult.ok).2.side =
        Side.buy ↔
        ((25 : ℚ) < 30 ∧ (bars20.map BarRow.close).getLastD 0 > 105)) ∧
     ((place_bracket_order SYMBOL ORDER_QTY Side.buy
          ((bars20.map BarRow.close).getLastD 0) GatewayResult.ok).2.side =
        Side.sell ↔
        ((25 : ℚ) > 70 ∧ (bars20.map BarRow.close).getLastD 0 < 105))) :=
  ⟨by with_unfolding_all decide,
   ((signal_decision_spec rsi25 bars20 initial_last_order_time SYMBOL
       ⟨100, RegistryResult.ok [], GatewayResult.ok⟩).2.2.2 25 105
       (by with_unfolding_all decide) (by with_unfolding_all decide)).1
     _ (by with_unfolding_all decide)⟩

/-- On non-negative inputs the code's truncation toward zero coincides with
truncation toward negative infinity (the floor). -/
theorem round_price_eq_floor (x : ℚ) (hx : 0 ≤ x) (d : ℕ) :
    round_price x d = (⌊x * 10 ^ d⌋ : ℚ) / 10 ^ d := by
  unfold round_price rat_trunc
  rw [if_pos (mul_nonneg hx (by positivity))]

/-- The buy-side bracket order handed to the gateway, field by field. -/
theorem place_buy_order (s : String) (q e : ℚ) (g : GatewayResult) :
    (place_bracket_order s q Side.buy e g).2 =
      ⟨s, q, Side.buy, round_price (e * (1 - STOP_LOSS_PCT)) 4,
        round_price (e * (1 + TAKE_PROFIT_PCT)) 4⟩ := by
  cases g <;> rfl

/-- The sell-side bracket order handed to the gateway, field by field. -/
theorem place_sell_order (s : String) (q e : ℚ) (g : GatewayResult) :
    (place_bracket_order s q Side.sell e g).2 =
      ⟨s, q, Side.sell, round_price (e * (1 + STOP_LOSS_PCT)) 4,
        round_price (e * (1 - TAKE_PROFIT_PCT)) 4⟩ := by
  cases g <;> rfl

/-- C6: every order the evaluation hands to the gateway carries, for a
non-negative entry price `last_close`: on a buy, stop =
round_down(last_close·(1−stop_pct), 4dp) and target =
round_down(last_close·(1+tp_pct), 4dp); on a sell the signs are mirrored —
with round_down the truncation toward negative infinity (the floor) and
stop_pct = 0.01, tp_pct = 0.02 the configured defaults. -/
theorem bracket_price_formulas (K : List ℚ → ℕ → ℚ) (bars : List BarRow)
    (lot : String → ℚ) (sym : String) (env : Env)
    (hnn : 0 ≤ (bars.map BarRow.close).getLastD 0) :
    STOP_LOSS_PCT = 1 / 100 ∧ TAKE_PROFIT_PCT = 2 / 100 ∧
    ∀ o ∈ (check_and_maybe_trade K bars lot sym env).2,
      o.symbol = sym ∧ o.qty = ORDER_QTY ∧
      (o.side = Side.buy →
        o.slPrice = (⌊(bars.map BarRow.close).getLastD 0 *
            (1 - STOP_LOSS_PCT) * 10 ^ 4⌋ : ℚ) / 10 ^ 4 ∧
        o.tpPrice = (⌊(bars.map BarRow.close).getLastD 0 *
            (1 + TAKE_PROFIT_PCT) * 10 ^ 4⌋ : ℚ) / 10 ^ 4) ∧
      (o.side = Side.sell →
        o.slPrice = (⌊(bars.map BarRow.close).getLastD 0 *
            (1 + STOP_LOSS_PCT) * 10 ^ 4⌋ : ℚ) / 10 ^ 4 ∧
        o.tpPrice = (⌊(bars.map BarRow.close).getLastD 0 *
            (1 - TAKE_PROFIT_PCT) * 10 ^ 4⌋ : ℚ) / 10 ^ 4) := by
  refine ⟨rfl, rfl, ?_⟩
  intro o ho
  rcases check_cases K bars lot sym env with h | ⟨side, r, m, _, _, _, _, _, hres⟩
  · rw [h] at ho; cases ho
  · rw [hres] at ho
    simp only [List.mem_singleton] at ho
    subst ho
    cases side
    · rw [place_buy_order]
      refine ⟨rfl, rfl, ?_, ?_⟩
      · intro _
        refine ⟨?_, ?_⟩
        · exact round_price_eq_floor _
            (mul_nonneg hnn (by norm_num [STOP_LOSS_PCT])) 4
        · exact round_price_eq_floor _
            (mul_nonneg hnn (by norm_num [TAKE_PROFIT_PCT])) 4
      · intro hs
        exact absurd hs (by simp)
    · rw [place_sell_order]
      refine ⟨rfl, rfl, ?_, ?_⟩
      · intro hb
        exact absurd hb (by simp)
      · intro _
        refine ⟨?_, ?_⟩
        · exact round_price_eq_floor _
            (mul_nonneg hnn (by norm_num [STOP_LOSS_PCT])) 4
        · exact round_price_eq_floor _
            (mul_nonneg hnn (by norm_num [TAKE_PROFIT_PCT])) 4

/-- C6 witness: the formulas instantiated at the concrete buy order
dispatched on `bars20` (entry price 200). -/
theorem bracket_price_formulas_witness :
    (0 : ℚ) ≤ (bars20.map BarRow.close).getLastD 0 ∧
    ((place_bracket_order SYMBOL ORDER_QTY Side.buy
        ((bars20.map BarRow.close).getLastD 0) GatewayResult.ok).2.symbol =
      SYMBOL ∧
     (place_bracket_order SYMBOL ORDER_QTY Side.buy
        ((bars20.map BarRow.close).getLastD 0) GatewayResult.ok).2.qty =
      ORDER_QTY ∧
     ((place_bracket_order SYMBOL ORDER_QTY Side.buy
          ((bars20.map BarRow.close).getLastD 0) GatewayResult.ok).2.side =
        Side.buy →
       (place_bracket_order SYMBOL ORDER_QTY Side.buy
          ((bars20.map BarRow.close).getLastD 0) GatewayResult.ok).2.slPrice =
         (⌊(bars20.map BarRow.close).getLastD 0 *
             (1 - STOP_LOSS_PCT) * 10 ^ 4⌋ : ℚ) / 10 ^ 4 ∧
       (place_bracket_order SYMBOL ORDER_QTY Side.buy
          ((bars20.map BarRow.close).getLastD 0) GatewayResult.ok).2.tpPrice =
         (⌊(bars20.map BarRow.close).getLastD 0 *
             (1 + TAKE_PROFIT_PCT) * 10 ^ 4⌋ : ℚ) / 10 ^ 4) ∧
     ((place_bracket_order SYMBOL ORDER_QTY Side.buy
          ((bars20.map BarRow.close).getLastD 0) GatewayResult.ok).2.side =
        Side.sell →
       (place_bracket_order SYMBOL ORDER_QTY Side.buy
          ((bars20.map BarRow.close).getLastD 0) GatewayResult.ok).2.slPrice =
         (⌊(bars20.map BarRow.close).getLastD 0 *
             (1 + STOP_LOSS_PCT) * 10 ^ 4⌋ : ℚ) / 10 ^ 4 ∧
       (place_bracket_order SYMBOL ORDER_QTY Side.buy
          ((bars20.map BarRow.close).getLastD 0) GatewayResult.ok).2.tpPrice =
         (⌊(bars20.map BarRow.close).getLastD 0 *
             (1 - TAKE_PROFIT_PCT) * 10 ^ 4⌋ : ℚ) / 10 ^ 4)) :=
  ⟨by with_unfolding_all decide,
   (bracket_price_formulas rsi25 bars20 initial_last_order_time SYMBOL
       ⟨100, RegistryResult.ok [], GatewayResult.ok⟩
       (by with_unfolding_all decide)).2.2
     _ (by with_unfolding_all decide)⟩

/-- C7 is false on the code for negative inputs: `ROUND_DOWN` truncates
toward zero, not toward negative infinity — at price `-0.000005` the code
yields `0`, whereas truncation toward negative infinity yields `-0.0001`. -/
theorem round_price_negative_input_not_floor :
    round_price (-(1 / 200000) : ℚ) 4 = 0 ∧
    ((⌊(-(1 / 200000) : ℚ) * 10 ^ 4⌋ : ℚ) / 10 ^ 4 = -(1 / 10000)) ∧
    (0 : ℚ) ≠ -(1 / 10000) :=
  ⟨by with_unfolding_all decide, by norm_num, by norm_num⟩

/-- C7 (amended): `round_price` truncates toward zero at 4 decimal places
(identically for both trade sides — it takes no side argument); on
non-negative prices this coincides with truncation toward negative infinity,
and it never nearest-rounds: round_price(100.99999, 4) = 100.9999 (nearest
would give 101) and round_price(100.12349, 4) = 100.1234. -/
theorem round_price_truncates_nonneg :
    (∀ p : ℚ, 0 ≤ p → round_price p 4 = (⌊p * 10 ^ 4⌋ : ℚ) / 10 ^ 4) ∧
    round_price (100.99999 : ℚ) 4 = (100.9999 : ℚ) ∧
    round_price (100.12349 : ℚ) 4 = (100.1234 : ℚ) ∧
    (100.9999 : ℚ) ≠ 101 :=
  ⟨fun p hp => round_price_eq_floor p hp 4,
   by norm_num [round_price, rat_trunc],
   by norm_num [round_price, rat_trunc],
   by norm_num⟩

/-- C7 witness: the non-negative truncation characterization at price 5. -/
theorem round_price_truncates_nonneg_witness :
    (0 : ℚ) ≤ 5 ∧ round_price 5 4 = (⌊(5 : ℚ) * 10 ^ 4⌋ : ℚ) / 10 ^ 4 :=
  ⟨by norm_num, round_price_truncates_nonneg.1 5 (by norm_num)⟩

/-- Folding appended rows over the buffer keeps exactly the last `MAX_BARS`
rows of the full append sequence. -/
theorem foldl_appendBar (xs : List BarRow) :
    ∀ h : List BarRow, h.length ≤ MAX_BARS →
      List.foldl appendBar h xs =
        (h ++ xs).drop (h.length + xs.length - MAX_BARS) := by
  simp only [MAX_BARS]
  induction xs with
  | nil =>
      intro h hh
      simp [Nat.sub_eq_zero_of_le hh]
  | cons x xs ih =>
      intro h hh
      have hx : appendBar h x = (h ++ [x]).drop (h.length + 1 - 500) := by
        simp [appendBar, MAX_BARS]
      have hlen : (appendBar h x).length =
          h.length + 1 - (h.length + 1 - 500) := by
        rw [hx]
        simp
      rw [List.foldl_cons, ih (appendBar h x) (by rw [hlen]; omega), hx,
        ← List.drop_append_of_le_length (by
          simp only [List.length_append, List.length_cons, List.length_nil]
          omega),
        List.drop_drop, List.append_assoc, List.singleton_append]
      congr 1
      simp only [List.length_drop, List.length_append, List.length_cons,
        List.length_nil]
      omega

/-- C8: the close buffer is an ordered, append-only, capacity-bounded
sequence with FIFO eviction: appending any sequence keeps exactly its last
`MAX_BARS` entries in insertion order; below capacity nothing is ever
removed; appending capacity + 1 rows leaves exactly `MAX_BARS` rows, the
oldest one evicted and the order of the rest preserved. -/
theorem price_history_fifo_eviction (xs : List BarRow) :
    List.foldl appendBar [] xs = xs.drop (xs.length - MAX_BARS) ∧
    (xs.length ≤ MAX_BARS → List.foldl appendBar [] xs = xs) ∧
    (xs.length = MAX_BARS + 1 →
      (List.foldl appendBar [] xs).length = MAX_BARS ∧
      List.foldl appendBar [] xs = xs.drop 1) := by
  have h0 := foldl_appendBar xs [] (by simp)
  simp only [List.nil_append, List.length_nil, Nat.zero_add] at h0
  refine ⟨h0, fun hle => ?_, fun hcap => ?_⟩
  · rw [h0, Nat.sub_eq_zero_of_le hle, List.drop_zero]
  · refine ⟨?_, ?_⟩
    · rw [h0, List.length_drop, hcap]
      norm_num [MAX_BARS]
    · rw [h0, hcap]
      norm_num [MAX_BARS]

/-- C8 witness: appending `MAX_BARS + 1` identical rows to the empty buffer
leaves `MAX_BARS` rows, the first row evicted. -/
theorem price_history_fifo_eviction_witness :
    (List.replicate (MAX_BARS + 1) (⟨none, 1⟩ : BarRow)).length =
      MAX_BARS + 1 ∧
    ((List.foldl appendBar []
        (List.replicate (MAX_BARS + 1) (⟨none, 1⟩ : BarRow))).length =
      MAX_BARS ∧
     List.foldl appendBar []
        (List.replicate (MAX_BARS + 1) (⟨none, 1⟩ : BarRow)) =
       (List.replicate (MAX_BARS + 1) (⟨none, 1⟩ : BarRow)).drop 1) :=
  ⟨by simp,
   (price_history_fifo_eviction
     (List.replicate (MAX_BARS + 1) ⟨none, 1⟩)).2.2 (by simp)⟩

/-- Appending always keeps the appended row: it is the newest entry of the
resulting buffer. -/
theorem appendBar_getLast (l : List BarRow) (row : BarRow) :
    (appendBar l row).getLast? = some row := by
  show ((l ++ [row]).drop ((l ++ [row]).length - MAX_BARS)).getLast? = some row
  rw [List.drop_append_of_le_length (by
    simp only [List.length_append, List.length_cons, List.length_nil, MAX_BARS]
    omega)]
  exact List.getLast?_concat _

/-- C9 is false on the code: a delivered bar with close 0 (a non-positive
price) is NOT dropped — `on_bars` appends it to the price history. -/
theorem nonpositive_close_appended :
    (0 : ℚ) ≤ 0 ∧
    (on_bars rsi25 [] initial_last_order_time ⟨none, some 0, none⟩
        ⟨0, RegistryResult.ok [], GatewayResult.ok⟩).1 = [⟨none, 0⟩] :=
  ⟨le_refl 0, rfl⟩

/-- C9 (amended): `on_bars` performs no validation of the delivered close:
a non-positive close is appended to the price history like any other value
and becomes the newest entry (the pipeline continues, signal-handling
exceptions being caught). -/
theorem nonpositive_close_still_recorded (K : List ℚ → ℕ → ℚ)
    (bars : List BarRow) (lot : String → ℚ) (env : Env) (ts : Option Int)
    (c : ℚ) (_hc : c ≤ 0) :
    ((on_bars K bars lot ⟨ts, some c, none⟩ env).1).getLast? =
      some ⟨ts, c⟩ :=
  appendBar_getLast bars ⟨ts, c⟩

/-- C9 amended witness: the non-positive close `-5` ends up as the newest
history entry. -/
theorem nonpositive_close_still_recorded_witness :
    (-(5 : ℚ)) ≤ 0 ∧
    ((on_bars rsi25 bars20 initial_last_order_time
        ⟨none, some (-(5 : ℚ)), none⟩
        ⟨0, RegistryResult.ok [], GatewayResult.ok⟩).1).getLast? =
      some ⟨none, -(5 : ℚ)⟩ :=
  ⟨by norm_num,
   nonpositive_close_still_recorded rsi25 bars20 initial_last_order_time
     ⟨0, RegistryResult.ok [], GatewayResult.ok⟩ none (-(5 : ℚ))
     (by norm_num)⟩

/-- C10: `last_order_time` defaults to 0 for every symbol, so with wall
clock at least `cooldown_seconds` a first evaluation is never throttled: the
cooldown condition is false, and when the indicators are defined, the buy
conditions hold and no position is reported, the evaluation goes on to
submit an order. -/
theorem fresh_symbol_not_throttled :
    (∀ sym : String, initial_last_order_time sym = 0) ∧
    (∀ (sym : String) (now : ℚ), cooldown_seconds ≤ now →
      ¬ (now - initial_last_order_time sym < cooldown_seconds)) ∧
    (∀ (K : List ℚ → ℕ → ℚ) (bars : List BarRow) (sym : String) (env : Env)
      (r m : ℚ),
      cooldown_seconds ≤ env.now_ts →
      compute_rsi_from_series K (bars.map BarRow.close) RSI_PERIOD = some r →
      compute_ma_from_series (bars.map BarRow.close) MA_PERIOD = some m →
      r < 30 → (bars.map BarRow.close).getLastD 0 > m →
      has_open_position sym env.registry = false →
      (check_and_maybe_trade K bars initial_last_order_time sym env).2 ≠ []) := by
  refine ⟨fun _ => rfl, ?_, ?_⟩
  · intro sym now h
    simp only [initial_last_order_time, sub_zero]
    exact not_lt.mpr h
  · intro K bars sym env r m hcdle hr hm h30 hlast hpos
    have hcd : ¬ (env.now_ts - initial_last_order_time sym <
        cooldown_seconds) := by
      simp only [initial_last_order_time, sub_zero]
      exact not_lt.mpr hcdle
    rw [check_buy_fires K bars initial_last_order_time sym env r m hr hm hcd
      h30 hlast hpos]
    simp

/-- C10 witness: the first evaluation at wall clock 100 from the fresh map
passes the gate and submits an order. -/
theorem fresh_symbol_not_throttled_witness :
    cooldown_seconds ≤ (100 : ℚ) ∧
    (check_and_maybe_trade rsi25 bars20 initial_last_order_time SYMBOL
        ⟨100, RegistryResult.ok [], GatewayResult.ok⟩).2 ≠ [] :=
  ⟨by norm_num [cooldown_seconds],
   fresh_symbol_not_throttled.2.2 rsi25 bars20 SYMBOL
     ⟨100, RegistryResult.ok [], GatewayResult.ok⟩ 25 105
     (by norm_num [cooldown_seconds]) (by with_unfolding_all decide)
     (by with_unfolding_all decide) (by norm_num)
     (by with_unfolding_all decide) rfl⟩

end Scalper
